import Mathlib

/-!
Verification development for the OneMail server sync core.

The definitions below are a shallow embedding of the TypeScript source:

* `emailSyncService.ts` (both the flat-map revision and the nested-map
  revision embedded after it in `webSocketService.ts`): the backfill
  fetch loop, the 24-hour cutoff, the duplicate check, the per-message
  try/catch around categorization and indexing, and `startSync` /
  `startIdleMonitoring` client registration.
* `elasticsearchService` (`part_007`): `indexEmail` and the document id
  it derives.
* `aiCategorizationService.ts`: `validateCategory`,
  `fallbackCategorization` and the success/failure split of
  `categorizeEmail`.
* `authService` (`part_006`): the per-user OAuth token list,
  `handleCallback` token-list update and `getAccessToken` refresh logic.
* `webSocketService.ts`: the per-user client map, connection
  registration and the socket close handler.

JavaScript `Map` objects (and the Elasticsearch id-keyed document
store) are modelled as association lists with at most one binding per
key; `mapSet` replaces the binding when the key is present and appends
otherwise, exactly the observable behaviour of `Map.prototype.set` and
of an Elasticsearch index call with an explicit document id.
Timestamps are integer milliseconds.
-/

namespace OneMail

/-- Model of `Map.prototype.set` (and of an Elasticsearch put by
document id) on an association list: replace the binding for the key if
one is present, append otherwise. -/
def mapSet {α β : Type} [BEq α] : List (α × β) → α → β → List (α × β)
  | [], k, v => [(k, v)]
  | p :: rest, k, v => if p.1 == k then (k, v) :: rest else p :: mapSet rest k v

/-- Model of `Map.prototype.get`. -/
def mapGet {α β : Type} [BEq α] (m : List (α × β)) (k : α) : Option β :=
  (m.find? (fun p => p.1 == k)).map (fun p => p.2)

/-- Model of `Map.prototype.has`. -/
def mapHas {α β : Type} [BEq α] (m : List (α × β)) (k : α) : Bool :=
  m.any (fun p => p.1 == k)

/-- Model of `Map.prototype.delete`. -/
def mapDelete {α β : Type} [BEq α] (m : List (α × β)) (k : α) : List (α × β) :=
  m.filter (fun p => !(p.1 == k))

/-- Number of bindings a map holds for a key; a well-formed JavaScript
`Map` has `keyCount ≤ 1` for every key. -/
def keyCount {α β : Type} [BEq α] (m : List (α × β)) (k : α) : Nat :=
  (m.filter (fun p => p.1 == k)).length

theorem keyCount_nil {α β : Type} [BEq α] (k : α) :
    keyCount ([] : List (α × β)) k = 0 := rfl

theorem keyCount_cons {α β : Type} [BEq α] (p : α × β) (m : List (α × β)) (k : α) :
    keyCount (p :: m) k = (if p.1 == k then 1 else 0) + keyCount m k := by
  simp only [keyCount, List.filter_cons]
  by_cases h : (p.1 == k) = true
  · simp [h, Nat.add_comm]
  · simp [h]

theorem keyCount_mapSet_ne {α β : Type} [BEq α] [LawfulBEq α]
    (m : List (α × β)) (k : α) (v : β) (j : α) (hjk : j ≠ k) :
    keyCount (mapSet m k v) j = keyCount m j := by
  have h1 : (k == j) = false := beq_eq_false_iff_ne.mpr (Ne.symm hjk)
  induction m with
  | nil => simp [mapSet, keyCount_nil, keyCount_cons, h1]
  | cons p rest ih =>
      cases h : p.1 == k with
      | true =>
          have h2 : (p.1 == j) = false := by rw [eq_of_beq h]; exact h1
          simp [mapSet, h, keyCount_cons, h1, h2]
      | false => simp [mapSet, h, keyCount_cons, ih]

theorem keyCount_mapSet_self {α β : Type} [BEq α] [LawfulBEq α]
    (m : List (α × β)) (k : α) (v : β) (h : keyCount m k ≤ 1) :
    keyCount (mapSet m k v) k ≤ 1 := by
  induction m with
  | nil => simp [mapSet, keyCount_cons, keyCount_nil]
  | cons p rest ih =>
      cases hp : p.1 == k with
      | true =>
          rw [keyCount_cons, hp] at h
          have hms : mapSet (p :: rest) k v = (k, v) :: rest := by simp [mapSet, hp]
          rw [hms, keyCount_cons, beq_self_eq_true]
          simp only [if_pos rfl] at h ⊢
          exact h
      | false =>
          rw [keyCount_cons, hp] at h
          simp only [Bool.false_eq_true, if_neg (fun hh => hh)] at h
          simp only [Nat.zero_add] at h
          simp [mapSet, hp, keyCount_cons]
          exact ih h

/-- `mapSet` keeps a well-formed map well-formed: at most one binding
per key. -/
theorem keyCount_mapSet_le_one {α β : Type} [BEq α] [LawfulBEq α]
    (m : List (α × β)) (k : α) (v : β) (h : ∀ j, keyCount m j ≤ 1) (j : α) :
    keyCount (mapSet m k v) j ≤ 1 := by
  by_cases hj : j = k
  · subst hj; exact keyCount_mapSet_self m j v (h j)
  · rw [keyCount_mapSet_ne m k v j hj]; exact h j

theorem mapGet_mapSet_self {α β : Type} [BEq α] [LawfulBEq α]
    (m : List (α × β)) (k : α) (v : β) :
    mapGet (mapSet m k v) k = some v := by
  induction m with
  | nil => simp [mapSet, mapGet, List.find?_cons]
  | cons p rest ih =>
      cases h : p.1 == k with
      | true => simp [mapSet, h, mapGet, List.find?_cons]
      | false =>
          simp only [mapGet, List.find?_cons] at ih
          simp [mapSet, h, mapGet, List.find?_cons, ih]

theorem mapGet_mapDelete_self {α β : Type} [BEq α]
    (m : List (α × β)) (k : α) :
    mapGet (mapDelete m k) k = none := by
  induction m with
  | nil => rfl
  | cons p rest ih =>
      cases h : p.1 == k with
      | true => simpa [mapDelete, List.filter_cons, h] using ih
      | false =>
          simp only [mapDelete] at ih
          simp [mapDelete, List.filter_cons, h, mapGet, List.find?_cons, ih]

/-! ## Exactly-once identifiers (claim C1)

`emailSyncService` computes the duplicate-lookup key
(`emailSyncService.ts` line 64 and the nested-map revision line 437) and
`indexEmail` computes the document id for the index call
(`part_007` line 111).  Both template literals join the three fields
with the HYPHEN character. -/

/-- The id used for the duplicate lookup:
`emailId = userId-email-uid` (template literal at
`emailSyncService.ts:64`). -/
def lookupEmailId (userId email : String) (uid : Nat) : String :=
  userId ++ "-" ++ email ++ "-" ++ toString uid

/-- The id used for the Elasticsearch insert
(`part_007:111`). -/
def insertEmailId (userId email : String) (uid : Nat) : String :=
  userId ++ "-" ++ email ++ "-" ++ toString uid

/-- Modelled from the spec words, for comparison only: the spec claims
the exactly-once key joins the three fields with the pipe character. -/
def specPipeEmailId (userId email : String) (uid : Nat) : String :=
  userId ++ "|" ++ email ++ "|" ++ toString uid

/-- C1 counterexample: at the concrete account `(u1, a@x.com)` and uid
42 the id the code computes is joined by hyphens and differs from the
pipe-joined string the claim demands. -/
theorem c1_id_separator_counterexample :
    lookupEmailId "u1" "a@x.com" 42 = "u1-a@x.com-42" ∧
    lookupEmailId "u1" "a@x.com" 42 ≠ specPipeEmailId "u1" "a@x.com" 42 := by
  constructor
  · rfl
  · decide

/-- C1 (amended): the pipeline computes one deterministic id per
`(userId, email, uid)`, uses the same string for the duplicate lookup
and for the index insert, and that string joins the three fields with
the hyphen character, not the pipe. -/
theorem c1_email_id_joined_by_hyphen (userId email : String) (uid : Nat) :
    lookupEmailId userId email uid = insertEmailId userId email uid ∧
    lookupEmailId userId email uid =
      userId ++ "-" ++ email ++ "-" ++ toString uid := ⟨rfl, rfl⟩

/-! ## The Elasticsearch index and `indexEmail` (claim C2)

`part_007` lines 85-120: `indexEmail` composes a document from the
fetched message and calls `esClient.index` with an explicit document
id.  The Elasticsearch index API with an explicit id inserts the
document when the id is absent and fully replaces the stored document
when the id is already present; it never fails with a conflict.  The
store is modelled as an id-keyed map (`mapSet`). -/

/-- A fetched IMAP message as the sync loop sees it: `envelope`
fields are optional (imapflow may omit them), `source` is the raw
message body. -/
structure FetchedMessage where
  uid : Nat
  envSubject : Option String
  envFromAddr : Option String
  envToAddrs : List String
  envDate : Option Int
  source : Option String
  attachmentsCount : Nat
deriving DecidableEq, Repr

/-- The document `indexEmail` composes (`part_007` lines 92-107).
The TypeScript field `from` is rendered `fromAddr` (`from` is a Lean
keyword); `to` is rendered `toAddrs`. -/
structure StoredEmailDoc where
  userId : String
  email : String
  folder : String
  uid : Nat
  subject : String
  fromAddr : String
  toAddrs : List String
  date : Int
  body : String
  isRead : Bool
  isStarred : Bool
  hasAttachments : Bool
  createdAt : Int
  updatedAt : Int
deriving DecidableEq, Repr

/-- The id-keyed Elasticsearch store. -/
abbrev EsIndex : Type := List (String × StoredEmailDoc)

/-- The possible pipeline-visible results of an index insert, as the
spec enumerates them. -/
inductive InsertResult
  | ok
  | conflict
  | transient
deriving DecidableEq, Repr

/-- `indexEmail` (`part_007` lines 85-120): compose the document with
the source defaults and put it into the store under
`insertEmailId userId email message.uid`.  `now` stands for the
`new Date()` calls; the es index call returns ok whether or not the id
was already present (it replaces the stored document in that case). -/
def indexEmail (now : Int) (userId email folder : String)
    (message : FetchedMessage) (idx : EsIndex) : EsIndex × InsertResult :=
  let emailData : StoredEmailDoc :=
    { userId := userId
      email := email
      folder := folder
      uid := message.uid
      subject := message.envSubject.getD "No Subject"
      fromAddr := message.envFromAddr.getD "unknown@example.com"
      toAddrs := message.envToAddrs
      date := message.envDate.getD now
      body := message.source.getD ""
      isRead := false
      isStarred := false
      hasAttachments := decide (0 < message.attachmentsCount)
      createdAt := now
      updatedAt := now }
  (mapSet idx (insertEmailId userId email message.uid) emailData, InsertResult.ok)

/-- Modelled from the spec: `EmailIndex.Exists(id) → bool`.  The
`checkEmailExists` function of the deployed `elasticsearchService` is
imported by the sync loop but its definition is not under `src/`; the
spec describes it as a point existence check on the id. -/
def checkEmailExists (idx : EsIndex) (id : String) : Bool :=
  (mapGet idx id).isSome

/-- C2 counterexample: insert the same `(u1, a@x.com, 42)` twice with
different source bytes.  The second `indexEmail` call returns ok, not
Conflict, and the stored record IS overwritten (its body changes from
"old" to "new"). -/
theorem c2_insert_overwrites_counterexample :
    let msgOld : FetchedMessage :=
      { uid := 42, envSubject := some "Hello", envFromAddr := some "b@y.com",
        envToAddrs := ["a@x.com"], envDate := some 1000, source := some "old",
        attachmentsCount := 0 }
    let msgNew : FetchedMessage := { msgOld with source := some "new" }
    let idx0 : EsIndex := []
    let step1 := indexEmail 2000 "u1" "a@x.com" "INBOX" msgOld idx0
    let step2 := indexEmail 3000 "u1" "a@x.com" "INBOX" msgNew step1.1
    step2.2 = InsertResult.ok ∧
    step2.2 ≠ InsertResult.conflict ∧
    (mapGet step2.1 (insertEmailId "u1" "a@x.com" 42)).map StoredEmailDoc.body
      = some "new" ∧
    (mapGet step1.1 (insertEmailId "u1" "a@x.com" 42)).map StoredEmailDoc.body
      = some "old" := by
  refine ⟨rfl, by decide, ?_, ?_⟩ <;> rfl

/-- C2 (amended): `indexEmail` never reports a Conflict — an insert
with an id already present replaces the stored record (upsert).  The
consequence the claim draws still holds: because the store is keyed by
the derived id, delivering the same `(userId, email, uid)` any number
of times leaves at most one stored record under that id. -/
theorem c2_index_upsert_at_most_one_record
    (now : Int) (userId email folder : String) (message : FetchedMessage)
    (idx : EsIndex) (h : ∀ id, keyCount idx id ≤ 1) :
    (indexEmail now userId email folder message idx).2 = InsertResult.ok ∧
    (∀ id, keyCount (indexEmail now userId email folder message idx).1 id ≤ 1) := by
  refine ⟨rfl, fun id => ?_⟩
  exact keyCount_mapSet_le_one idx _ _ h id

/-- Witness for `c2_index_upsert_at_most_one_record` at the empty
store. -/
theorem c2_index_upsert_witness :
    (indexEmail 0 "u1" "a@x.com" "INBOX"
        { uid := 42, envSubject := none, envFromAddr := none,
          envToAddrs := [], envDate := none, source := none,
          attachmentsCount := 0 } []).2 = InsertResult.ok ∧
    (∀ id, keyCount (indexEmail 0 "u1" "a@x.com" "INBOX"
        { uid := 42, envSubject := none, envFromAddr := none,
          envToAddrs := [], envDate := none, source := none,
          attachmentsCount := 0 } []).1 id ≤ 1) :=
  c2_index_upsert_at_most_one_record 0 "u1" "a@x.com" "INBOX" _ []
    (fun _ => by simp [keyCount_nil])

/-! ## The classifier (claim C6)

`aiCategorizationService.ts`: `categorizeEmail` truncates the inputs,
invokes the remote model, and on a SUCCESSFUL call maps the response
through `validateCategory` (exact then partial matching on the
RESPONSE string); the keyword fallback over `subject + " " + body`
(`fallbackCategorization`) runs only in the catch branch, when the
remote call throws. -/

/-- Model of `String.prototype.toLowerCase` (ASCII). -/
def lowerStr (s : String) : String := String.mk (s.data.map Char.toLower)

/-- Characters of `s` begin with the characters of `sub`. -/
def charsStartWith : List Char → List Char → Bool
  | _, [] => true
  | [], _ :: _ => false
  | c :: cs, d :: ds => c == d && charsStartWith cs ds

/-- `sub` occurs somewhere in `s`. -/
def charsContain : List Char → List Char → Bool
  | [], sub => sub.isEmpty
  | c :: rest, sub => charsStartWith (c :: rest) sub || charsContain rest sub

/-- Model of `String.prototype.includes`. -/
def strContains (s sub : String) : Bool := charsContain s.data sub.data

/-- Model of `String.prototype.trim`. -/
def trimStr (s : String) : String :=
  String.mk (((s.data.dropWhile Char.isWhitespace).reverse.dropWhile
    Char.isWhitespace).reverse)

/-- The closed category set. -/
inductive EmailCategory
  | interested
  | meetingBooked
  | notInterested
  | spam
  | outOfOffice
  | uncategorized
deriving DecidableEq, Repr

/-- The exact category strings (`aiCategorizationService.ts` lines
8-15). -/
def EmailCategory.label : EmailCategory → String
  | .interested => "Interested"
  | .meetingBooked => "Meeting Booked"
  | .notInterested => "Not Interested"
  | .spam => "Spam"
  | .outOfOffice => "Out of Office"
  | .uncategorized => "Uncategorized"

/-- `VALID_CATEGORIES`, in source order. -/
def VALID_CATEGORIES : List EmailCategory :=
  [.interested, .meetingBooked, .notInterested, .spam, .outOfOffice,
   .uncategorized]

/-- `validateCategory` (lines 89-120): lowercase and trim the remote
response, look for an exact category-name match, then partial
substring matches ON THE RESPONSE, defaulting to Uncategorized. -/
def validateCategory (response : String) : EmailCategory :=
  let cleanResponse := trimStr (lowerStr response)
  match VALID_CATEGORIES.find?
      (fun category => cleanResponse == lowerStr category.label) with
  | some category => category
  | none =>
    if strContains cleanResponse "interested" &&
        !(strContains cleanResponse "not") then .interested
    else if strContains cleanResponse "meeting" ||
        strContains cleanResponse "booked" ||
        strContains cleanResponse "schedule" then .meetingBooked
    else if strContains cleanResponse "not interested" ||
        strContains cleanResponse "decline" ||
        strContains cleanResponse "reject" then .notInterested
    else if strContains cleanResponse "spam" ||
        strContains cleanResponse "promotional" ||
        strContains cleanResponse "unsubscribe" then .spam
    else if strContains cleanResponse "out of office" ||
        strContains cleanResponse "vacation" ||
        strContains cleanResponse "away" then .outOfOffice
    else .uncategorized

def spamKeywords : List String :=
  ["unsubscribe", "promotional", "offer", "discount", "limited time",
   "act now"]

def oooKeywords : List String :=
  ["out of office", "vacation", "away", "automatic reply", "auto-reply"]

def meetingKeywords : List String :=
  ["meeting", "call", "schedule", "appointment", "booked", "calendar"]

def notInterestedKeywords : List String :=
  ["not interested", "decline", "reject", "no thank", "pass"]

def interestedKeywords : List String :=
  ["interested", "yes", "sounds good", "let\x27s do", "count me in"]

/-- `fallbackCategorization` (lines 126-161): keyword scan over the
lowercased `subject + " " + body`, in priority order Spam, Out of
Office, Meeting Booked, Not Interested, Interested.  The `from`
argument is accepted and unused, as in the source. -/
def fallbackCategorization (subject body : String) (fromAddr : Option String) :
    EmailCategory :=
  let content := lowerStr (subject ++ " " ++ body)
  if spamKeywords.any (fun keyword => strContains content keyword) then .spam
  else if oooKeywords.any (fun keyword => strContains content keyword) then
    .outOfOffice
  else if meetingKeywords.any (fun keyword => strContains content keyword) then
    .meetingBooked
  else if notInterestedKeywords.any
      (fun keyword => strContains content keyword) then .notInterested
  else if interestedKeywords.any
      (fun keyword => strContains content keyword) then .interested
  else .uncategorized

/-- Outcome of the remote Gemini call: a successful call carries the
optional response text (`result.text`), a failed one throws. -/
inductive RemoteOutcome
  | success (text : Option String)
  | failure
deriving DecidableEq, Repr

/-- `categorizeEmail` (lines 28-84): on success the response is
`result.text?.trim() || ''` passed to `validateCategory`; on a thrown
remote error the catch branch returns `fallbackCategorization` over
the original subject and body. -/
def categorizeEmail (subject body : String) (fromAddr : Option String)
    (remote : RemoteOutcome) : EmailCategory :=
  match remote with
  | .success text => validateCategory (trimStr (text.getD ""))
  | .failure => fallbackCategorization subject body fromAddr

/-- C6 counterexample: the remote call succeeds and returns "banana",
which matches no category name.  The claim says the keyword fallback
over `subject||body` then runs; for subject "meeting" it would return
Meeting Booked.  The code instead partial-matches on the response
string alone and returns Uncategorized. -/
theorem c6_fallback_counterexample :
    categorizeEmail "meeting" "" none (RemoteOutcome.success (some "banana"))
      = EmailCategory.uncategorized ∧
    fallbackCategorization "meeting" "" none = EmailCategory.meetingBooked ∧
    EmailCategory.uncategorized ≠ EmailCategory.meetingBooked := by
  refine ⟨by decide, by decide, by decide⟩

/-- C6 (amended): a successful remote call is resolved entirely by
`validateCategory` on the trimmed response — exact name match first,
then partial substring matches on the response itself, Uncategorized
when none fires; the deterministic keyword fallback over
`subject||body` (priority Spam, Out of Office, Meeting Booked, Not
Interested, Interested) runs exactly when the remote call throws, and
returns Uncategorized only when no keyword set matches. -/
theorem c6_success_validates_failure_falls_back
    (subject body : String) (fromAddr : Option String) (text : Option String) :
    categorizeEmail subject body fromAddr (RemoteOutcome.success text)
      = validateCategory (trimStr (text.getD "")) ∧
    categorizeEmail subject body fromAddr RemoteOutcome.failure
      = fallbackCategorization subject body fromAddr ∧
    (fallbackCategorization subject body fromAddr = EmailCategory.uncategorized
      ↔ (spamKeywords.any
            (fun keyword =>
              strContains (lowerStr (subject ++ " " ++ body)) keyword) = false ∧
          oooKeywords.any
            (fun keyword =>
              strContains (lowerStr (subject ++ " " ++ body)) keyword) = false ∧
          meetingKeywords.any
            (fun keyword =>
              strContains (lowerStr (subject ++ " " ++ body)) keyword) = false ∧
          notInterestedKeywords.any
            (fun keyword =>
              strContains (lowerStr (subject ++ " " ++ body)) keyword) = false ∧
          interestedKeywords.any
            (fun keyword =>
              strContains (lowerStr (subject ++ " " ++ body)) keyword)
            = false)) := by
  refine ⟨rfl, rfl, ?_⟩
  simp only [fallbackCategorization]
  split_ifs with h1 h2 h3 h4 h5 <;> simp_all

/-! ## The OAuth token store (claims C7 and C10)

`part_006` (`authService`): the in-memory `userTokens` map holds, per
user, a list of `UserTokens` records.  `handleCallback` upserts the
entry for the authorized email (lines 78-90); `getAccessToken` selects
a token and refreshes it only when `expiry_date <= Date.now()`
(lines 98-138). -/

/-- A stored OAuth token record (`UserTokens` in `../types`): fields
`email`, `access_token`, `refresh_token?`, `expiry_date`
(milliseconds). -/
structure UserTokens where
  email : String
  accessToken : String
  refreshToken : Option String
  expiryDate : Int
deriving DecidableEq, Repr

/-- Model of `Array.prototype.findIndex`: index of the first element
satisfying the predicate, `-1` when there is none. -/
def findIndex (p : UserTokens → Bool) : List UserTokens → Int
  | [] => -1
  | t :: ts =>
      if p t then 0
      else
        let r := findIndex p ts
        if r < 0 then -1 else r + 1

/-- The token-list update `handleCallback` performs (`part_006` lines
78-90): find the first entry with the authorized email; replace it in
place when present, push the new record otherwise. -/
def handleCallbackUpdate (existingTokens : List UserTokens)
    (userData : UserTokens) : List UserTokens :=
  let existingIndex :=
    findIndex (fun token => token.email == userData.email) existingTokens
  if 0 ≤ existingIndex then existingTokens.set existingIndex.toNat userData
  else existingTokens ++ [userData]

theorem handleCallbackUpdate_nil (u : UserTokens) :
    handleCallbackUpdate [] u = [u] := rfl

theorem handleCallbackUpdate_cons (t : UserTokens) (ts : List UserTokens)
    (u : UserTokens) :
    handleCallbackUpdate (t :: ts) u =
      if t.email == u.email then u :: ts
      else t :: handleCallbackUpdate ts u := by
  cases hp : t.email == u.email with
  | true => simp [handleCallbackUpdate, findIndex, hp]
  | false =>
      by_cases hneg : findIndex (fun token => token.email == u.email) ts < 0
      · have hidx : ¬(0 ≤ (-1 : Int)) := by omega
        have hneg2 : ¬(0 ≤ findIndex (fun token => token.email == u.email) ts)
          := by omega
        simp [handleCallbackUpdate, findIndex, hp, hneg, hidx, hneg2]
      · have hge : 0 ≤ findIndex (fun token => token.email == u.email) ts := by
          omega
        have htn : (findIndex (fun token => token.email == u.email) ts
            + 1).toNat
            = (findIndex (fun token => token.email == u.email) ts).toNat + 1 :=
          by omega
        simp [handleCallbackUpdate, findIndex, hp, hneg, hge, htn,
          List.set_cons_succ]
        omega

/-- Number of stored token records carrying a given email address. -/
def emailCount (tokens : List UserTokens) (e : String) : Nat :=
  (tokens.filter (fun token => token.email == e)).length

theorem emailCount_cons (t : UserTokens) (ts : List UserTokens) (e : String) :
    emailCount (t :: ts) e
      = (if t.email == e then 1 else 0) + emailCount ts e := by
  simp only [emailCount, List.filter_cons]
  by_cases h : (t.email == e) = true
  · simp [h, Nat.add_comm]
  · simp [h]

theorem emailCount_update_ne (ts : List UserTokens) (u : UserTokens)
    (e : String) (he : e ≠ u.email) :
    emailCount (handleCallbackUpdate ts u) e = emailCount ts e := by
  have h1 : (u.email == e) = false := beq_eq_false_iff_ne.mpr (Ne.symm he)
  induction ts with
  | nil => simp [handleCallbackUpdate_nil, emailCount_cons, emailCount, h1]
  | cons t rest ih =>
      rw [handleCallbackUpdate_cons]
      cases hp : t.email == u.email with
      | true =>
          have h2 : (t.email == e) = false := by
            rw [eq_of_beq hp]; exact h1
          simp [emailCount_cons, h1, h2]
      | false => simp [emailCount_cons, ih]

theorem emailCount_update_self (ts : List UserTokens) (u : UserTokens)
    (h : emailCount ts u.email ≤ 1) :
    emailCount (handleCallbackUpdate ts u) u.email ≤ 1 := by
  induction ts with
  | nil => simp [handleCallbackUpdate_nil, emailCount_cons, emailCount]
  | cons t rest ih =>
      cases hp : t.email == u.email with
      | true =>
          have hupd : handleCallbackUpdate (t :: rest) u = u :: rest := by
            rw [handleCallbackUpdate_cons, hp]; rfl
          rw [hupd]
          simp [emailCount_cons, hp] at h ⊢
          omega
      | false =>
          have hupd : handleCallbackUpdate (t :: rest) u
              = t :: handleCallbackUpdate rest u := by
            rw [handleCallbackUpdate_cons, hp]; rfl
          rw [hupd]
          simp only [emailCount_cons, hp] at h ⊢
          simp only [Bool.false_eq_true, if_neg (fun hh => hh),
            Nat.zero_add] at h ⊢
          exact ih h

theorem emailCount_update_le_one (ts : List UserTokens) (u : UserTokens)
    (h : ∀ e, emailCount ts e ≤ 1) (e : String) :
    emailCount (handleCallbackUpdate ts u) e ≤ 1 := by
  by_cases he : e = u.email
  · subst he; exact emailCount_update_self ts u (h u.email)
  · rw [emailCount_update_ne ts u e he]; exact h e

theorem emailCount_foldl_le_one (callbacks : List UserTokens) :
    ∀ acc : List UserTokens, (∀ j, emailCount acc j ≤ 1) →
      ∀ j, emailCount (callbacks.foldl handleCallbackUpdate acc) j ≤ 1 := by
  induction callbacks with
  | nil => intro acc hacc j; simpa using hacc j
  | cons c rest ih =>
      intro acc hacc j
      exact ih (handleCallbackUpdate acc c)
        (emailCount_update_le_one acc c hacc) j

/-- C10 (confirmed): starting from the empty token list, any sequence
of completed OAuth callbacks — each applying the `handleCallback`
upsert for its authorized email — leaves at most one stored record per
email address: a repeat authorization replaces the entry in place
instead of appending a duplicate. -/
theorem c10_at_most_one_token_per_email (callbacks : List UserTokens)
    (e : String) :
    emailCount (callbacks.foldl handleCallbackUpdate []) e ≤ 1 :=
  emailCount_foldl_le_one callbacks [] (fun j => by simp [emailCount]) e

/-! ### `getAccessToken` (claim C7) -/

/-- Outcome of `oAuth2Client.refreshAccessToken()`: new credentials or
a thrown error. -/
inductive RefreshOutcome
  | ok (accessToken : String) (refreshToken : Option String)
      (expiryDate : Int)
  | err
deriving DecidableEq, Repr

/-- The credential `getAccessToken` leaves in `oAuth2Client.credentials`
and returns: the access token string, observed together with its expiry
time. -/
structure CredentialResult where
  accessToken : String
  expiryDate : Int
deriving DecidableEq, Repr

/-- Token selection inside `getAccessToken` (`part_006` lines 104-107):
the entry matching the requested email, or the first entry when no
email is given. -/
def selectedToken (tokensArray : List UserTokens) (email : Option String) :
    Option UserTokens :=
  match email with
  | some e => tokensArray.find? (fun tokens => tokens.email == e)
  | none => tokensArray.head?

/-- `getAccessToken` (`part_006` lines 98-138): throw when the user has
no tokens or no entry matches the email; refresh — via the
`refresh` oracle — only when `expiry_date <= Date.now()`; otherwise
return the stored token untouched. -/
def getAccessToken (tokensArray : List UserTokens) (email : Option String)
    (now : Int) (refresh : RefreshOutcome) :
    Except String CredentialResult :=
  if tokensArray.isEmpty then Except.error "No tokens for user"
  else
    match selectedToken tokensArray email with
    | none => Except.error "No tokens found for email"
    | some targetTokens =>
        if targetTokens.expiryDate ≤ now then
          match refresh with
          | RefreshOutcome.ok newAccess _ newExpiry =>
              Except.ok { accessToken := newAccess, expiryDate := newExpiry }
          | RefreshOutcome.err =>
              Except.error "Failed to refresh access token"
        else
          Except.ok { accessToken := targetTokens.accessToken,
                      expiryDate := targetTokens.expiryDate }

/-- C7 counterexample: a stored token that expires 30 s from now is
returned untouched — the call succeeds with an expiry only 30 000 ms in
the future, violating the claimed 60-second freshness bound, and no
refresh is attempted (the refresh oracle is `err`, yet the call
succeeds). -/
theorem c7_no_sixty_second_margin_counterexample :
    getAccessToken
        [{ email := "a@x.com", accessToken := "tok", refreshToken := none,
           expiryDate := 30000 }] none 0 RefreshOutcome.err
      = Except.ok { accessToken := "tok", expiryDate := 30000 } ∧
    ¬(0 + 60000 ≤ (30000 : Int)) := by
  refine ⟨rfl, by decide⟩

/-- C7 (amended): `getAccessToken` refreshes only when the selected
token is already expired (`expiry_date ≤ now`); an unexpired token is
returned unchanged, so a successful non-refreshing call guarantees only
that the expiry is strictly in the future — no 60-second margin.  When
the token is expired, the result is exactly what the refresh oracle
produced. -/
theorem c7_refresh_only_when_expired (tokensArray : List UserTokens)
    (email : Option String) (now : Int) (refresh : RefreshOutcome)
    (t : UserTokens) (hsel : selectedToken tokensArray email = some t) :
    (now < t.expiryDate →
      getAccessToken tokensArray email now refresh
        = Except.ok { accessToken := t.accessToken,
                      expiryDate := t.expiryDate } ∧
      ∀ cred, getAccessToken tokensArray email now refresh = Except.ok cred →
        now < cred.expiryDate) ∧
    (t.expiryDate ≤ now →
      getAccessToken tokensArray email now refresh
        = match refresh with
          | RefreshOutcome.ok newAccess _ newExpiry =>
              Except.ok { accessToken := newAccess, expiryDate := newExpiry }
          | RefreshOutcome.err =>
              Except.error "Failed to refresh access token") := by
  have hne : tokensArray.isEmpty = false := by
    cases tokensArray with
    | nil =>
        exfalso
        cases email with
        | none => simp [selectedToken] at hsel
        | some e => simp [selectedToken] at hsel
    | cons a rest => rfl
  constructor
  · intro hfresh
    have hnle : ¬(t.expiryDate ≤ now) := by omega
    constructor
    · simp [getAccessToken, hne, hsel, hnle]
    · intro cred hcred
      simp [getAccessToken, hne, hsel, hnle] at hcred
      rw [← hcred]
      exact hfresh
  · intro hexp
    simp [getAccessToken, hne, hsel, hexp]

/-- Witness for `c7_refresh_only_when_expired`: one unexpired stored
token. -/
theorem c7_refresh_only_when_expired_witness :
    selectedToken
        [{ email := "a@x.com", accessToken := "tok", refreshToken := none,
           expiryDate := 30000 }] none
      = some { email := "a@x.com", accessToken := "tok",
               refreshToken := none, expiryDate := 30000 } ∧
    ((0 : Int) < 30000 →
      getAccessToken
          [{ email := "a@x.com", accessToken := "tok", refreshToken := none,
             expiryDate := 30000 }] none 0 RefreshOutcome.err
        = Except.ok { accessToken := "tok", expiryDate := 30000 }) := by
  have h := c7_refresh_only_when_expired
    [{ email := "a@x.com", accessToken := "tok", refreshToken := none,
       expiryDate := 30000 }] none 0 RefreshOutcome.err
    { email := "a@x.com", accessToken := "tok", refreshToken := none,
      expiryDate := 30000 } (by decide)
  exact ⟨by decide, fun hlt => (h.1 hlt).1⟩

/-! ## `startSync` and the client registry (claim C3)

The nested-map `emailSyncService` revision (embedded in
`webSocketService.ts`, lines 373-898) keeps
`userClients : Map<userId, Map<email, ImapClient>>` (line 381).
`startSync` (lines 648-708) performs no already-running check: after
the token checks it calls `fetchRecentEmails`, which always constructs
a fresh `ImapFlow` client (lines 386-396), and then
`startIdleMonitoring`, which stores the client (lines 636-640),
overwriting whatever was registered for `(userId, email)`.  Client
handles are numbered by construction order. -/

abbrev UserClientsMap : Type := List (String × List (String × Nat))

/-- Client storage in `startIdleMonitoring` (lines 636-640): create
the user's inner map when missing, then set the email's entry. -/
def storeClient (m : UserClientsMap) (userId email : String)
    (client : Nat) : UserClientsMap :=
  let m1 : UserClientsMap := if mapHas m userId then m else mapSet m userId []
  let inner : List (String × Nat) := (mapGet m1 userId).getD []
  mapSet m1 userId (mapSet inner email client)

/-- The mutable sync state: the client registry plus the count of
`ImapFlow` constructions performed so far. -/
structure SyncRegistry where
  userClients : UserClientsMap
  nextClientId : Nat

/-- What `startSync` can report: success or one of the two thrown
token errors (lines 670-678).  The source has no AlreadyRunning
result. -/
inductive StartSyncResult
  | ok
  | errNoTokens
  | errNoTokenForEmail
deriving DecidableEq, Repr

/-- `startSync` (lines 648-708): throw when the user has no tokens or
none matches the email; otherwise construct a fresh client
(`fetchRecentEmails`) and register it (`startIdleMonitoring`). -/
def startSync (tokens : List UserTokens) (st : SyncRegistry)
    (userId email : String) : SyncRegistry × StartSyncResult :=
  if tokens.isEmpty then (st, StartSyncResult.errNoTokens)
  else if (tokens.find? (fun token => token.email == email)).isNone then
    (st, StartSyncResult.errNoTokenForEmail)
  else
    ({ userClients := storeClient st.userClients userId email st.nextClientId,
       nextClientId := st.nextClientId + 1 }, StartSyncResult.ok)

/-- Number of registered clients for `(userId, email)` across the
nested registry. -/
def agentCount (m : UserClientsMap) (userId email : String) : Nat :=
  ((m.filter (fun p => p.1 == userId)).map
    (fun p => keyCount p.2 email)).sum

theorem mem_mapSet {α β : Type} [BEq α] (m : List (α × β)) (k : α) (v : β)
    (p : α × β) (hp : p ∈ mapSet m k v) : p = (k, v) ∨ p ∈ m := by
  induction m with
  | nil => simpa [mapSet] using hp
  | cons q rest ih =>
      cases h : q.1 == k with
      | true =>
          rw [show mapSet (q :: rest) k v = (k, v) :: rest by
            simp [mapSet, h]] at hp
          rcases List.mem_cons.mp hp with h1 | h1
          · exact Or.inl h1
          · exact Or.inr (List.mem_cons_of_mem q h1)
      | false =>
          rw [show mapSet (q :: rest) k v = q :: mapSet rest k v by
            simp [mapSet, h]] at hp
          rcases List.mem_cons.mp hp with h1 | h1
          · exact Or.inr (h1 ▸ List.mem_cons_self q rest)
          · rcases ih h1 with h2 | h2
            · exact Or.inl h2
            · exact Or.inr (List.mem_cons_of_mem q h2)

theorem mapGet_eq_some_mem {α β : Type} [BEq α] (m : List (α × β)) (k : α)
    (v : β) (h : mapGet m k = some v) : ∃ p, p ∈ m ∧ p.2 = v := by
  induction m with
  | nil => simp [mapGet] at h
  | cons q rest ih =>
      cases hq : q.1 == k with
      | true =>
          refine ⟨q, List.mem_cons_self q rest, ?_⟩
          simp [mapGet, List.find?_cons, hq] at h
          exact h
      | false =>
          simp only [mapGet, List.find?_cons, hq] at h ih
          rcases ih h with ⟨p, hp, hv⟩
          exact ⟨p, List.mem_cons_of_mem q hp, hv⟩

theorem map_sum_le_one {α : Type} (l : List α) (f : α → Nat)
    (hlen : l.length ≤ 1) (hf : ∀ x ∈ l, f x ≤ 1) : (l.map f).sum ≤ 1 := by
  match l with
  | [] => simp
  | [x] => simpa using hf x (List.mem_singleton.mpr rfl)
  | x :: y :: rest => simp at hlen

theorem agentCount_le_one (m : UserClientsMap)
    (hout : ∀ u, keyCount m u ≤ 1)
    (hin : ∀ p ∈ m, ∀ e, keyCount p.2 e ≤ 1) (u e : String) :
    agentCount m u e ≤ 1 := by
  apply map_sum_le_one _ _ (hout u)
  intro p hp
  exact hin p (List.mem_of_mem_filter hp) e

theorem storeClient_wf (m : UserClientsMap) (userId email : String)
    (client : Nat)
    (hout : ∀ u, keyCount m u ≤ 1)
    (hin : ∀ p ∈ m, ∀ e, keyCount p.2 e ≤ 1) :
    (∀ u, keyCount (storeClient m userId email client) u ≤ 1) ∧
    (∀ p ∈ storeClient m userId email client, ∀ e, keyCount p.2 e ≤ 1) := by
  simp only [storeClient]
  by_cases hh : mapHas m userId = true
  all_goals
    simp only [hh, if_pos, if_neg, Bool.false_eq_true, reduceIte]
  case pos =>
    have hout1 := hout
    have hin1 := hin
    refine ⟨fun u => keyCount_mapSet_le_one m userId _ hout1 u, ?_⟩
    intro p hp e
    rcases mem_mapSet m userId _ p hp with h1 | h1
    · subst h1
      apply keyCount_mapSet_le_one
      cases hg : mapGet m userId with
      | none => simp [hg, keyCount_nil]
      | some v =>
          simp only [hg, Option.getD_some]
          rcases mapGet_eq_some_mem m userId v hg with ⟨q, hq, hv⟩
          intro j
          exact hv ▸ hin1 q hq j
    · exact hin1 p h1 e
  case neg =>
    have hout1 : ∀ u, keyCount (mapSet m userId []) u ≤ 1 :=
      keyCount_mapSet_le_one m userId [] hout
    have hin1 : ∀ p ∈ mapSet m userId ([] : List (String × Nat)),
        ∀ e, keyCount p.2 e ≤ 1 := by
      intro p hp e
      rcases mem_mapSet m userId [] p hp with h1 | h1
      · subst h1; simp [keyCount_nil]
      · exact hin p h1 e
    refine ⟨fun u => keyCount_mapSet_le_one _ userId _ hout1 u, ?_⟩
    intro p hp e
    rcases mem_mapSet _ userId _ p hp with h1 | h1
    · subst h1
      apply keyCount_mapSet_le_one
      cases hg : mapGet (mapSet m userId []) userId with
      | none => simp [hg, keyCount_nil]
      | some v =>
          simp only [hg, Option.getD_some]
          rcases mapGet_eq_some_mem _ userId v hg with ⟨q, hq, hv⟩
          intro j
          exact hv ▸ hin1 q hq j
    · exact hin1 p h1 e

/-- C3 counterexample: with a valid token for `a@x.com`, two
consecutive `startSync("u1", "a@x.com")` calls both succeed — the
second does NOT report any already-running condition (no such result
exists in the source) and DOES construct a second client: the
construction counter reaches 2, and the registry entry now holds the
second client (handle 1), the first having been overwritten without
being closed.  Only the Map-overwrite keeps the registry count at 1. -/
theorem c3_double_start_counterexample :
    let tokens : List UserTokens :=
      [{ email := "a@x.com", accessToken := "tok", refreshToken := none,
         expiryDate := 1000 }]
    let st0 : SyncRegistry := { userClients := [], nextClientId := 0 }
    let step1 := startSync tokens st0 "u1" "a@x.com"
    let step2 := startSync tokens step1.1 "u1" "a@x.com"
    step1.2 = StartSyncResult.ok ∧
    step2.2 = StartSyncResult.ok ∧
    step2.1.nextClientId = 2 ∧
    agentCount step2.1.userClients "u1" "a@x.com" = 1 ∧
    mapGet ((mapGet step2.1.userClients "u1").getD []) "a@x.com"
      = some 1 := by
  refine ⟨rfl, rfl, rfl, ?_, ?_⟩ <;> decide

/-- C3 (amended): `startSync` performs no already-running check and
has no AlreadyRunning result: every successful call constructs a fresh
IMAP client (the construction counter increments) and overwrites the
registry entry for `(userId, email)`.  The registry nevertheless holds
at most one client per `(userId, email)` — but only because
`Map.prototype.set` replaces the previous entry, which is dropped
without being closed. -/
theorem c3_start_overwrites_registry (tokens : List UserTokens)
    (st : SyncRegistry) (userId email : String)
    (hout : ∀ u, keyCount st.userClients u ≤ 1)
    (hin : ∀ p ∈ st.userClients, ∀ e, keyCount p.2 e ≤ 1) :
    ((startSync tokens st userId email).2 = StartSyncResult.ok →
      (startSync tokens st userId email).1.nextClientId
        = st.nextClientId + 1) ∧
    (∀ u e, agentCount (startSync tokens st userId email).1.userClients u e
      ≤ 1) := by
  simp only [startSync]
  split_ifs with h1 h2
  · exact ⟨fun hok => absurd hok (by decide), fun u e =>
      agentCount_le_one st.userClients hout hin u e⟩
  · exact ⟨fun hok => absurd hok (by decide), fun u e =>
      agentCount_le_one st.userClients hout hin u e⟩
  · refine ⟨fun _ => rfl, fun u e => ?_⟩
    have hwf := storeClient_wf st.userClients userId email st.nextClientId
      hout hin
    exact agentCount_le_one _ hwf.1 hwf.2 u e

/-- Witness for `c3_start_overwrites_registry` at the empty registry. -/
theorem c3_start_overwrites_registry_witness :
    ((startSync
        [{ email := "a@x.com", accessToken := "tok", refreshToken := none,
           expiryDate := 1000 }]
        { userClients := [], nextClientId := 0 } "u1" "a@x.com").2
          = StartSyncResult.ok →
      (startSync
        [{ email := "a@x.com", accessToken := "tok", refreshToken := none,
           expiryDate := 1000 }]
        { userClients := [], nextClientId := 0 } "u1" "a@x.com").1.nextClientId
          = 0 + 1) ∧
    (∀ u e, agentCount (startSync
        [{ email := "a@x.com", accessToken := "tok", refreshToken := none,
           expiryDate := 1000 }]
        { userClients := [], nextClientId := 0 } "u1" "a@x.com").1.userClients
        u e ≤ 1) :=
  c3_start_overwrites_registry _ _ "u1" "a@x.com"
    (fun u => by simp [keyCount_nil]) (fun p hp => by simp at hp)

/-! ## WebSocket session registration and close (claim C4)

`webSocketService.ts`: `authenticateConnection` registers the
connection with `this.clients.set(user.id, client)` (lines 108-116) —
it never closes a previously registered socket.  The close handler
installed by `setupClientHandlers` (lines 158-165) unconditionally
calls `stopAutoSync(userId)` and `this.clients.delete(userId)`.
Sockets are numbered; `sentCloses` records every close frame the
service itself sends (socket, code, reason); `stopSyncCalls` records
`stopAutoSync` invocations. -/

structure WsState where
  clients : List (String × Nat)
  sentCloses : List (Nat × Nat × String)
  stopSyncCalls : List String
deriving DecidableEq, Repr

/-- Registration (`authenticateConnection`, lines 108-116): store the
client under the userId.  No close frame is sent to any prior
socket. -/
def registerClient (st : WsState) (userId : String) (socket : Nat) :
    WsState :=
  { st with clients := mapSet st.clients userId socket }

/-- The `close` handler (`setupClientHandlers`, lines 158-165): stop
the user's syncs, then delete the user's registry entry — with no
check whether the socket that closed is still the registered one or
whether another live session exists. -/
def handleSocketClose (st : WsState) (userId : String) : WsState :=
  { st with
    stopSyncCalls := st.stopSyncCalls ++ [userId],
    clients := mapDelete st.clients userId }

/-- `sendToClient` target lookup (lines 249-268): frames go to
whichever socket is currently registered for the user. -/
def sendTarget (st : WsState) (userId : String) : Option Nat :=
  mapGet st.clients userId

/-- C4 counterexample: user u1 opens socket 1, then socket 2.  No
close frame `(1, 1000, "replaced")` is ever sent (the service sends no
close frames at all during registration).  When socket 1's close event
then fires, the handler invokes stopSync for u1 even though socket 2
is live, and deletes the registry entry — which by then denotes socket
2, so subsequent frames reach no session at all. -/
theorem c4_session_replacement_counterexample :
    let st0 : WsState := { clients := [], sentCloses := [], stopSyncCalls := [] }
    let st1 := registerClient st0 "u1" 1
    let st2 := registerClient st1 "u1" 2
    let st3 := handleSocketClose st2 "u1"
    st2.sentCloses = [] ∧
    ¬(1, 1000, "replaced") ∈ st2.sentCloses ∧
    sendTarget st2 "u1" = some 2 ∧
    st3.stopSyncCalls = ["u1"] ∧
    sendTarget st3 "u1" = none := by
  refine ⟨rfl, by decide, rfl, rfl, rfl⟩

/-- C4 (amended): opening a new session overwrites the registry entry
(subsequent frames do go only to the new socket), but the prior
session is never sent a close frame — registration leaves `sentCloses`
untouched; and when the replaced socket's close event fires, the
handler unconditionally records a stopSync call for the user and
deletes the user's registry entry, with no surviving-session check. -/
theorem c4_register_no_close_and_close_stops_all (st : WsState)
    (userId : String) (socket : Nat) :
    (registerClient st userId socket).sentCloses = st.sentCloses ∧
    sendTarget (registerClient st userId socket) userId = some socket ∧
    (handleSocketClose st userId).stopSyncCalls
      = st.stopSyncCalls ++ [userId] ∧
    sendTarget (handleSocketClose st userId) userId = none := by
  refine ⟨rfl, ?_, rfl, ?_⟩
  · exact mapGet_mapSet_self st.clients userId socket
  · exact mapGet_mapDelete_self st.clients userId

/-! ## The backfill loop (claims C5, C8, C9)

`fetchRecentEmails` (nested-map revision, lines 384-497): compute the
cutoff `yesterday = Date.now() - 24*60*60*1000` (line 406), then for
each fetched message — inside a per-message try/catch — default the
date to `new Date()` when the envelope has none (line 419), skip the
message when its date is before the cutoff (line 429), skip it when
`checkEmailExists` finds the id (lines 437-443), categorize (its own
try/catch), and call `indexEmail` exactly once (line 460).  A thrown
index error is caught by the per-message catch (line 486): the message
is logged and abandoned, with NO retry and NO backoff sleep, and the
loop proceeds to the next message. -/

/-- `yesterday` (line 406). -/
def backfillCutoff (now : Int) : Int := now - 24 * 60 * 60 * 1000

/-- How one loop iteration ends for a message. -/
inductive MsgOutcome
  | skippedOld
  | skippedDuplicate
  | indexed
  | abandoned
deriving DecidableEq, Repr

/-- Observable result of one iteration: the store afterwards, the
outcome, how many `indexEmail` calls were made for this message, and
the backoff sleeps performed (the source performs none). -/
structure MsgResult where
  idx : EsIndex
  outcome : MsgOutcome
  insertCalls : Nat
  backoffSleeps : List Int
deriving Repr

/-- One iteration of the backfill for-loop (lines 417-489).
`insertThrows i` says whether the i-th `indexEmail` attempt for this
message would throw (an Elasticsearch transient failure); the source
makes a single attempt, so only attempt 0 is consulted.  The
categorization result is computed (and would be passed to the deployed
category-aware `indexEmail`, whose definition is not under `src/`;
the `part_007` revision ignores it). -/
def processBackfillMessage (now : Int) (userId email folder : String)
    (remote : RemoteOutcome) (insertThrows : Nat → Bool)
    (idx : EsIndex) (message : FetchedMessage) : MsgResult :=
  let emailDate := message.envDate.getD now
  if emailDate < backfillCutoff now then
    { idx := idx, outcome := MsgOutcome.skippedOld, insertCalls := 0,
      backoffSleeps := [] }
  else
    let emailId := lookupEmailId userId email message.uid
    if checkEmailExists idx emailId then
      { idx := idx, outcome := MsgOutcome.skippedDuplicate, insertCalls := 0,
        backoffSleeps := [] }
    else
      let _category := categorizeEmail (message.envSubject.getD "No Subject")
        (message.source.getD "") message.envFromAddr remote
      if insertThrows 0 then
        { idx := idx, outcome := MsgOutcome.abandoned, insertCalls := 1,
          backoffSleeps := [] }
      else
        { idx := (indexEmail now userId email folder message idx).1,
          outcome := MsgOutcome.indexed, insertCalls := 1,
          backoffSleeps := [] }

/-- The whole for-loop: outcomes in arrival order, threading the
store. -/
def processBackfillMessages (now : Int) (userId email folder : String)
    (remote : FetchedMessage → RemoteOutcome)
    (insertThrows : FetchedMessage → Nat → Bool) :
    EsIndex → List FetchedMessage → List MsgOutcome
  | _, [] => []
  | idx, message :: rest =>
      let r := processBackfillMessage now userId email folder
        (remote message) (insertThrows message) idx message
      r.outcome :: processBackfillMessages now userId email folder
        remote insertThrows r.idx rest

theorem processBackfillMessage_skippedOld_iff (now : Int)
    (userId email folder : String) (remote : RemoteOutcome)
    (insertThrows : Nat → Bool) (idx : EsIndex) (message : FetchedMessage) :
    (processBackfillMessage now userId email folder remote insertThrows idx
        message).outcome = MsgOutcome.skippedOld
      ↔ message.envDate.getD now < backfillCutoff now := by
  simp only [processBackfillMessage]
  split_ifs with h1 h2 h3 <;> simp_all

/-- C5 counterexample: a message that passes the cutoff and the
duplicate check, whose first `indexEmail` attempt throws but whose
second attempt would succeed.  The claim demands up to 3 retries with
sleeps of 200 ms, 800 ms and 3 s; the code makes exactly one attempt,
sleeps never, and abandons the message. -/
theorem c5_no_retry_counterexample :
    let message : FetchedMessage :=
      { uid := 42, envSubject := some "Hello", envFromAddr := some "b@y.com",
        envToAddrs := [], envDate := some 500, source := some "x",
        attachmentsCount := 0 }
    let firstAttemptOnlyFails : Nat → Bool := fun attempt => attempt == 0
    let r := processBackfillMessage 500 "u1" "a@x.com" "INBOX"
      RemoteOutcome.failure firstAttemptOnlyFails [] message
    r.outcome = MsgOutcome.abandoned ∧
    r.insertCalls = 1 ∧
    r.backoffSleeps = [] ∧
    r.backoffSleeps ≠ [200, 800, 3000] ∧
    firstAttemptOnlyFails 1 = false := by
  exact ⟨rfl, rfl, rfl, by decide, rfl⟩

/-- C5 (amended): when a message reaches the index step and the insert
throws, the pipeline abandons the message after that SINGLE attempt —
no retries, no backoff sleeps, store unchanged — and the per-message
try/catch lets the agent continue with the subsequent messages
unperturbed. -/
theorem c5_single_attempt_then_continue (now : Int)
    (userId email folder : String)
    (remote : FetchedMessage → RemoteOutcome)
    (insertThrows : FetchedMessage → Nat → Bool) (idx : EsIndex)
    (message : FetchedMessage) (rest : List FetchedMessage)
    (hdate : ¬(message.envDate.getD now < backfillCutoff now))
    (hdup : checkEmailExists idx (lookupEmailId userId email message.uid)
      = false)
    (hthrow : insertThrows message 0 = true) :
    processBackfillMessage now userId email folder (remote message)
        (insertThrows message) idx message
      = { idx := idx, outcome := MsgOutcome.abandoned, insertCalls := 1,
          backoffSleeps := [] } ∧
    processBackfillMessages now userId email folder remote insertThrows idx
        (message :: rest)
      = MsgOutcome.abandoned :: processBackfillMessages now userId email
          folder remote insertThrows idx rest := by
  have hmsg : processBackfillMessage now userId email folder (remote message)
      (insertThrows message) idx message
      = { idx := idx, outcome := MsgOutcome.abandoned, insertCalls := 1,
          backoffSleeps := [] } := by
    simp [processBackfillMessage, hdate, hdup, hthrow]
  refine ⟨hmsg, ?_⟩
  simp only [processBackfillMessages, hmsg]

/-- Witness for `c5_single_attempt_then_continue`. -/
theorem c5_single_attempt_then_continue_witness :
    processBackfillMessage 500 "u1" "a@x.com" "INBOX"
        RemoteOutcome.failure (fun attempt => attempt == 0) []
        { uid := 42, envSubject := some "Hello",
          envFromAddr := some "b@y.com", envToAddrs := [],
          envDate := some 500, source := some "x", attachmentsCount := 0 }
      = { idx := [], outcome := MsgOutcome.abandoned, insertCalls := 1,
          backoffSleeps := [] } ∧
    processBackfillMessages 500 "u1" "a@x.com" "INBOX"
        (fun _ => RemoteOutcome.failure) (fun _ attempt => attempt == 0) []
        [{ uid := 42, envSubject := some "Hello",
           envFromAddr := some "b@y.com", envToAddrs := [],
           envDate := some 500, source := some "x", attachmentsCount := 0 }]
      = MsgOutcome.abandoned :: processBackfillMessages 500 "u1" "a@x.com"
          "INBOX" (fun _ => RemoteOutcome.failure)
          (fun _ attempt => attempt == 0) [] [] :=
  c5_single_attempt_then_continue 500 "u1" "a@x.com" "INBOX"
    (fun _ => RemoteOutcome.failure) (fun _ attempt => attempt == 0) []
    { uid := 42, envSubject := some "Hello", envFromAddr := some "b@y.com",
      envToAddrs := [], envDate := some 500, source := some "x",
      attachmentsCount := 0 } []
    (by decide) (by decide) (by decide)

/-- C8 (confirmed): the backfill skip test compares the message date
against `now - 24h` and skips exactly the strictly-older messages: a
message dated `now - 24h + 1 ms` is handed on, one dated
`now - 24h - 1 ms` is skipped, and in general a dated message is
skipped iff its date is strictly before the cutoff, i.e. it is handed
to the rest of the pipeline iff its date is at or after `now - 24h`. -/
theorem c8_backfill_cutoff_boundary (now : Int)
    (userId email folder : String) (remote : RemoteOutcome)
    (insertThrows : Nat → Bool) (idx : EsIndex) (message : FetchedMessage) :
    ((processBackfillMessage now userId email folder remote insertThrows idx
        { message with envDate := some (backfillCutoff now + 1) }).outcome
      ≠ MsgOutcome.skippedOld) ∧
    ((processBackfillMessage now userId email folder remote insertThrows idx
        { message with envDate := some (backfillCutoff now - 1) }).outcome
      = MsgOutcome.skippedOld) ∧
    (∀ d : Int,
      ((processBackfillMessage now userId email folder remote insertThrows
          idx { message with envDate := some d }).outcome
        = MsgOutcome.skippedOld) ↔ d < backfillCutoff now) := by
  refine ⟨?_, ?_, fun d => ?_⟩
  · rw [Ne, processBackfillMessage_skippedOld_iff]
    simp only [Option.getD_some]
    omega
  · rw [processBackfillMessage_skippedOld_iff]
    simp only [Option.getD_some]
    omega
  · rw [processBackfillMessage_skippedOld_iff]
    simp only [Option.getD_some]

/-- C9 (confirmed): a fetched message whose envelope carries no date
is assigned the current time (`new Date()`), which can never be before
`now - 24h`; such a message is never cut off and always reaches the
deduplication check and, when not a duplicate, classification and the
index insert. -/
theorem c9_missing_date_never_skipped (now : Int)
    (userId email folder : String) (remote : RemoteOutcome)
    (insertThrows : Nat → Bool) (idx : EsIndex) (message : FetchedMessage)
    (hnone : message.envDate = none) :
    (processBackfillMessage now userId email folder remote insertThrows idx
        message).outcome = MsgOutcome.skippedDuplicate ∨
    (processBackfillMessage now userId email folder remote insertThrows idx
        message).outcome = MsgOutcome.abandoned ∨
    (processBackfillMessage now userId email folder remote insertThrows idx
        message).outcome = MsgOutcome.indexed := by
  have hnotold : (processBackfillMessage now userId email folder remote
      insertThrows idx message).outcome ≠ MsgOutcome.skippedOld := by
    rw [Ne, processBackfillMessage_skippedOld_iff, hnone]
    simp only [Option.getD_none]
    unfold backfillCutoff
    omega
  cases h : (processBackfillMessage now userId email folder remote
      insertThrows idx message).outcome with
  | skippedOld => exact absurd h hnotold
  | skippedDuplicate => exact Or.inl rfl
  | indexed => exact Or.inr (Or.inr rfl)
  | abandoned => exact Or.inr (Or.inl rfl)

/-- Witness for `c9_missing_date_never_skipped`: a dateless message at
the empty store is indexed. -/
theorem c9_missing_date_never_skipped_witness :
    (processBackfillMessage 500 "u1" "a@x.com" "INBOX"
        RemoteOutcome.failure (fun _ => false) []
        { uid := 42, envSubject := none, envFromAddr := none,
          envToAddrs := [], envDate := none, source := none,
          attachmentsCount := 0 }).outcome = MsgOutcome.skippedDuplicate ∨
    (processBackfillMessage 500 "u1" "a@x.com" "INBOX"
        RemoteOutcome.failure (fun _ => false) []
        { uid := 42, envSubject := none, envFromAddr := none,
          envToAddrs := [], envDate := none, source := none,
          attachmentsCount := 0 }).outcome = MsgOutcome.abandoned ∨
    (processBackfillMessage 500 "u1" "a@x.com" "INBOX"
        RemoteOutcome.failure (fun _ => false) []
        { uid := 42, envSubject := none, envFromAddr := none,
          envToAddrs := [], envDate := none, source := none,
          attachmentsCount := 0 }).outcome = MsgOutcome.indexed :=
  c9_missing_date_never_skipped 500 "u1" "a@x.com" "INBOX"
    RemoteOutcome.failure (fun _ => false) []
    { uid := 42, envSubject := none, envFromAddr := none, envToAddrs := [],
      envDate := none, source := none, attachmentsCount := 0 } rfl

end OneMail
